import Mathlib

/-!
Verification development for the incremental PDF signing engine in
`pdfstamp/sign.py`.  Python values are shallowly embedded: byte strings
become `List Char` (every byte written by the code under study is ASCII),
Python `int`s become `Int`, `BytesIO` becomes an explicit record of a byte
list and a cursor, and fallible code returns `Except String`.
-/

namespace Pdfstamp

/-- Python's `"%0wd" % n` format: decimal digits of `|n|`, a leading `-` for
negative `n`, zero-padded between the sign and the digits up to total width
`w`.  Digits are produced by core's `Nat.toDigits 10`. -/
def formatPad (w : Nat) (n : Int) : List Char :=
  let ds := Nat.toDigits 10 n.natAbs
  (if n < 0 then ['-'] else [])
    ++ List.replicate (w - (ds.length + (if n < 0 then 1 else 0))) '0' ++ ds

/-- A seekable byte sink with `BytesIO` semantics: writing at a cursor past
the end zero-pads the gap, writing inside the data overwrites in place. -/
structure ByteStream where
  data : List Char
  pos : Nat
deriving DecidableEq

def ByteStream.tell (st : ByteStream) : Nat := st.pos

def ByteStream.seek (st : ByteStream) (p : Nat) : ByteStream := ⟨st.data, p⟩

def ByteStream.write (st : ByteStream) (bs : List Char) : ByteStream :=
  ⟨st.data.take st.pos ++ List.replicate (st.pos - st.data.length) (Char.ofNat 0)
      ++ bs ++ st.data.drop (st.pos + bs.length),
   st.pos + bs.length⟩

/-- State of `SigByteRangeObject` (`sign.py`, lines 56-93). -/
structure SigByteRangeObject where
  _filled : Bool
  _range_object_offset : Option Nat
  first_region_len : Int
  second_region_offset : Int
  second_region_len : Int
deriving DecidableEq

/-- `SigByteRangeObject.__init__`. -/
def SigByteRangeObject.init : SigByteRangeObject :=
  ⟨false, none, 0, 0, 0⟩

/-- The string `"[ %08d %08d %08d %08d ]" % (0, first_region_len,
second_region_offset, second_region_len)` from `write_to_stream`. -/
def SigByteRangeObject.string_repr (o : SigByteRangeObject) : List Char :=
  ['[', ' '] ++ formatPad 8 0 ++ [' '] ++ formatPad 8 o.first_region_len
    ++ [' '] ++ formatPad 8 o.second_region_offset
    ++ [' '] ++ formatPad 8 o.second_region_len ++ [' ', ']']

/-- `SigByteRangeObject.write_to_stream` (lines 86-93): records the current
cursor as `_range_object_offset` on first serialization, then writes the
fixed-format byte-range string. -/
def SigByteRangeObject.write_to_stream (o : SigByteRangeObject)
    (st : ByteStream) : SigByteRangeObject × ByteStream :=
  let o' := if o._range_object_offset = none
    then { o with _range_object_offset := some st.tell } else o
  (o', st.write o'.string_repr)

/-- `SigByteRangeObject.fill_offsets` (lines 65-83), translated exactly:
note that the source checks `self._filled` but never assigns it, so the
returned object still has `_filled = false`. -/
def SigByteRangeObject.fill_offsets (o : SigByteRangeObject) (st : ByteStream)
    (sig_start sig_end eof : Int) :
    Except String (SigByteRangeObject × ByteStream) :=
  if o._filled then .error "Offsets already filled"
  else match o._range_object_offset with
    | none => .error "Could not determine where to write /ByteRange value"
    | some off =>
      let old_seek := st.tell
      let o1 := { o with
        first_region_len := sig_start,
        second_region_offset := sig_end,
        second_region_len := eof - sig_end }
      let (o2, st2) := o1.write_to_stream (st.seek off)
      .ok (o2, st2.seek old_seek)

end Pdfstamp

namespace Pdfstamp

/-! ### Length facts about the decimal formatter -/

theorem toDigitsCore_length_le (fuel k n : Nat) (ds : List Char)
    (hk : 0 < k) (hn : n < 10 ^ k) :
    (Nat.toDigitsCore 10 fuel n ds).length ≤ k + ds.length := by
  induction fuel generalizing k n ds with
  | zero =>
    simp only [Nat.toDigitsCore, List.length_nil]
    omega
  | succ fuel ih =>
    simp only [Nat.toDigitsCore]
    by_cases h : n / 10 = 0
    · rw [if_pos h]
      simp only [List.length_cons]
      omega
    · rw [if_neg h]
      have hk2 : 2 ≤ k := by
        by_contra hlt
        have : k = 1 := by omega
        subst this
        simp at hn
        omega
      have hrec : n / 10 < 10 ^ (k - 1) := by
        have h10 : 10 ^ k = 10 ^ (k - 1) * 10 := by
          conv_lhs => rw [show k = (k - 1) + 1 by omega]
          rw [pow_succ]
        apply Nat.div_lt_of_lt_mul
        omega
      have := ih (k - 1) (n / 10) (Nat.digitChar (n % 10) :: ds)
        (by omega) hrec
      simp only [List.length_cons] at this
      omega

theorem toDigits_length_le (k n : Nat) (hk : 0 < k) (hn : n < 10 ^ k) :
    (Nat.toDigits 10 n).length ≤ k := by
  simpa [Nat.toDigits] using
    toDigitsCore_length_le (n + 1) k n [] hk hn

/-- For `0 ≤ n < 10^8`, Python's `"%08d" % n` is exactly 8 characters. -/
theorem formatPad8_length (n : Int) (h0 : 0 ≤ n) (h8 : n < 10 ^ 8) :
    (formatPad 8 n).length = 8 := by
  have hlt : n.natAbs < 10 ^ 8 := by omega
  have hle := toDigits_length_le 8 n.natAbs (by norm_num) hlt
  have hneg : ¬ n < 0 := by omega
  simp only [formatPad, if_neg hneg, List.nil_append, List.length_append,
    List.length_replicate]
  omega

/-- Under legal (0 ≤ · < 10⁸) values, the serialized ByteRange literal is
exactly 39 bytes. -/
theorem string_repr_length (o : SigByteRangeObject)
    (h1 : 0 ≤ o.first_region_len) (h1' : o.first_region_len < 10 ^ 8)
    (h2 : 0 ≤ o.second_region_offset) (h2' : o.second_region_offset < 10 ^ 8)
    (h3 : 0 ≤ o.second_region_len) (h3' : o.second_region_len < 10 ^ 8) :
    o.string_repr.length = 39 := by
  simp only [SigByteRangeObject.string_repr, List.length_append,
    List.length_cons, List.length_nil,
    formatPad8_length 0 (by norm_num) (by norm_num),
    formatPad8_length _ h1 h1', formatPad8_length _ h2 h2',
    formatPad8_length _ h3 h3']

end Pdfstamp

deriving instance DecidableEq for Except

namespace Pdfstamp

theorem ByteStream.write_length_of_le (st : ByteStream) (bs : List Char)
    (h : st.pos + bs.length ≤ st.data.length) :
    (st.write bs).data.length = st.data.length := by
  simp only [ByteStream.write, List.length_append, List.length_take,
    List.length_replicate, List.length_drop]
  omega

theorem ByteStream.write_length_at_end (st : ByteStream) (bs : List Char)
    (h : st.pos = st.data.length) :
    (st.write bs).data.length = st.data.length + bs.length := by
  simp only [ByteStream.write, List.length_append, List.length_take,
    List.length_replicate, List.length_drop]
  omega

theorem ByteStream.write_frame (st : ByteStream) (bs : List Char)
    (h : st.pos + bs.length ≤ st.data.length) (i : Nat)
    (hi : i < st.pos ∨ st.pos + bs.length ≤ i) :
    (st.write bs).data[i]? = st.data[i]? := by
  have h1 : st.pos ≤ st.data.length := le_trans (Nat.le_add_right _ _) h
  simp only [ByteStream.write, Nat.sub_eq_zero_of_le h1, List.replicate_zero,
    List.append_nil]
  have htake : (st.data.take st.pos).length = st.pos := by
    rw [List.length_take]
    omega
  rcases hi with hi | hi
  · have ha : i < (st.data.take st.pos ++ bs).length := by
      rw [List.length_append, htake]
      omega
    rw [List.getElem?_append_left ha,
      List.getElem?_append_left (by omega : i < (st.data.take st.pos).length),
      List.getElem?_take_of_lt hi]
  · have ha : (st.data.take st.pos ++ bs).length ≤ i := by
      rw [List.length_append, htake]
      omega
    have hidx : st.pos + bs.length + (i - (st.data.take st.pos ++ bs).length)
        = i := by
      rw [List.length_append, htake]
      omega
    rw [List.getElem?_append_right ha, List.getElem?_drop, hidx]

/-- C1 (counterexample): serializing the freshly constructed ByteRange
placeholder (values `(0, 0, 0, 0)`, all legal) onto an empty stream writes
39 bytes, not the 36 bytes the claim states. -/
theorem c1_counterexample :
    ((SigByteRangeObject.init.write_to_stream ⟨[], 0⟩).2).data.length = 39 ∧
      ((SigByteRangeObject.init.write_to_stream ⟨[], 0⟩).2).data.length ≠ 36 := by
  decide

/-- C1 (amended): for every legal ByteRange value tuple (each component
nonnegative and at most 10⁸−1), `SigByteRangeObject.write_to_stream`
appends exactly 39 bytes — the same width for all such values — when
serialization starts at the end of the stream. -/
theorem c1_byte_range_width (o : SigByteRangeObject) (st : ByteStream)
    (hpos : st.pos = st.data.length)
    (h1 : 0 ≤ o.first_region_len) (h1' : o.first_region_len < 10 ^ 8)
    (h2 : 0 ≤ o.second_region_offset) (h2' : o.second_region_offset < 10 ^ 8)
    (h3 : 0 ≤ o.second_region_len) (h3' : o.second_region_len < 10 ^ 8) :
    ((o.write_to_stream st).2).data.length = st.data.length + 39 := by
  simp only [SigByteRangeObject.write_to_stream]
  have hrepr : ∀ (b : Bool) (oo : Option Nat),
      (SigByteRangeObject.mk b oo o.first_region_len o.second_region_offset
        o.second_region_len).string_repr.length = 39 :=
    fun b oo => string_repr_length _ h1 h1' h2 h2' h3 h3'
  split
  · rw [ByteStream.write_length_at_end _ _ hpos, hrepr o._filled (some st.tell)]
  · rw [ByteStream.write_length_at_end _ _ hpos,
      string_repr_length o h1 h1' h2 h2' h3 h3']

theorem c1_byte_range_width_witness :
    ((⟨List.replicate 5 'x', 5⟩ : ByteStream).pos
        = (⟨List.replicate 5 'x', 5⟩ : ByteStream).data.length) ∧
      (((⟨false, none, 17, 4325, 99999999⟩ :
          SigByteRangeObject).write_to_stream
            ⟨List.replicate 5 'x', 5⟩).2).data.length
        = (List.replicate 5 'x').length + 39 :=
  ⟨by decide,
    c1_byte_range_width ⟨false, none, 17, 4325, 99999999⟩
      ⟨List.replicate 5 'x', 5⟩ (by decide) (by decide) (by decide)
      (by decide) (by decide) (by decide) (by decide)⟩

/-- C2 (code bug): `fill_offsets` does fail when the placeholder's offset
was never recorded, but it is not one-shot: after a serialization records
the offset, a second `fill_offsets` call on the result of the first one
succeeds again, because the source checks `self._filled` without ever
setting it.  Evaluated here on a concrete double-fill run. -/
theorem c2_fill_offsets_not_one_shot :
    (SigByteRangeObject.init.fill_offsets ⟨[], 0⟩ 100 200 300
        = .error "Could not determine where to write /ByteRange value") ∧
      ((((SigByteRangeObject.init.write_to_stream ⟨[], 0⟩).1).fill_offsets
            ((SigByteRangeObject.init.write_to_stream ⟨[], 0⟩).2) 100 200 300
          >>= fun p => p.1.fill_offsets p.2 100 200 300).isOk = true) := by
  decide

end Pdfstamp

namespace Pdfstamp

/-- C10: on a placeholder whose offset was recorded and that is not marked
filled, with legal (8-digit) values and the 39-byte region inside the
stream, `fill_offsets` succeeds, restores the stream's cursor to the
position held before the call, and modifies no byte outside the recorded
39-byte fixed-width region. -/
theorem c10_fill_offsets_frame (o : SigByteRangeObject) (st : ByteStream)
    (off : Nat) (sig_start sig_end eof : Int)
    (hf : o._filled = false)
    (hoff : o._range_object_offset = some off)
    (hroom : off + 39 ≤ st.data.length)
    (hs : 0 ≤ sig_start) (hs' : sig_start < 10 ^ 8)
    (he : 0 ≤ sig_end) (he' : sig_end < 10 ^ 8)
    (hl : 0 ≤ eof - sig_end) (hl' : eof - sig_end < 10 ^ 8) :
    ∃ o2 st2, o.fill_offsets st sig_start sig_end eof = .ok (o2, st2) ∧
      st2.pos = st.pos ∧
      ∀ i, i < off ∨ off + 39 ≤ i → st2.data[i]? = st.data[i]? := by
  have key : o.fill_offsets st sig_start sig_end eof =
      .ok (⟨o._filled, o._range_object_offset, sig_start, sig_end,
          eof - sig_end⟩,
        ((st.seek off).write
          (SigByteRangeObject.mk o._filled o._range_object_offset sig_start
            sig_end (eof - sig_end)).string_repr).seek st.pos) := by
    simp [SigByteRangeObject.fill_offsets, SigByteRangeObject.write_to_stream,
      ByteStream.tell, hf, hoff]
  refine ⟨_, _, key, rfl, ?_⟩
  intro i hi
  have hlen : (SigByteRangeObject.mk o._filled o._range_object_offset
      sig_start sig_end (eof - sig_end)).string_repr.length = 39 :=
    string_repr_length _ hs hs' he he' hl hl'
  have hframe := ByteStream.write_frame (st.seek off)
    ((SigByteRangeObject.mk o._filled o._range_object_offset sig_start
      sig_end (eof - sig_end)).string_repr)
    (by simp only [ByteStream.seek, hlen]; exact hroom) i
    (by simp only [ByteStream.seek, hlen]; exact hi)
  simpa [ByteStream.seek] using hframe

theorem c10_fill_offsets_frame_witness :
    ((⟨false, some 2, 0, 0, 0⟩ : SigByteRangeObject)._filled = false) ∧
      ((⟨false, some 2, 0, 0, 0⟩ :
          SigByteRangeObject)._range_object_offset = some 2) ∧
      (2 + 39 ≤ (⟨List.replicate 45 'x', 13⟩ : ByteStream).data.length) ∧
      ((0 : Int) ≤ 10 ∧ (10 : Int) < 10 ^ 8) ∧
      ((0 : Int) ≤ 20 ∧ (20 : Int) < 10 ^ 8) ∧
      ((0 : Int) ≤ 30 - 20 ∧ (30 - 20 : Int) < 10 ^ 8) ∧
      (∃ o2 st2,
        (⟨false, some 2, 0, 0, 0⟩ : SigByteRangeObject).fill_offsets
            ⟨List.replicate 45 'x', 13⟩ 10 20 30 = .ok (o2, st2) ∧
          st2.pos = (⟨List.replicate 45 'x', 13⟩ : ByteStream).pos ∧
          ∀ i, i < 2 ∨ 2 + 39 ≤ i →
            st2.data[i]? =
              (⟨List.replicate 45 'x', 13⟩ : ByteStream).data[i]?) :=
  ⟨rfl, rfl, by decide, ⟨by decide, by decide⟩, ⟨by decide, by decide⟩,
    ⟨by decide, by decide⟩,
    c10_fill_offsets_frame ⟨false, some 2, 0, 0, 0⟩
      ⟨List.replicate 45 'x', 13⟩ 2 10 20 30 rfl rfl (by decide) (by decide)
      (by decide) (by decide) (by decide) (by decide) (by decide)⟩

end Pdfstamp

namespace Pdfstamp

def apos : Char := Char.ofNat 39

/-- A Python `datetime`: calendar fields plus, for timezone-aware values,
the total UTC offset in seconds (`utcoffset()` as a signed duration). -/
structure Datetime where
  year : Nat
  month : Nat
  day : Nat
  hour : Nat
  minute : Nat
  second : Nat
  utcoffset : Option Int
deriving DecidableEq

/-- `pdf_date` (lines 32-53).  `dt.utcoffset().seconds` is Python's
`timedelta.seconds` field: the floor-modulo of the total signed offset by
86400, hence always in `[0, 86400)`; the source's negative-sign branch is
translated as written even though it can never trigger. -/
def pdf_date (dt : Datetime) : List Char :=
  let base_dt := ['D', ':'] ++ formatPad 4 dt.year ++ formatPad 2 dt.month
    ++ formatPad 2 dt.day ++ formatPad 2 dt.hour ++ formatPad 2 dt.minute
    ++ formatPad 2 dt.second
  let utc_offset_string : List Char :=
    match dt.utcoffset with
    | none => []
    | some off =>
      let tz_seconds : Int := off.emod 86400
      if tz_seconds = 0 then ['Z']
      else
        let sign : List Char := if tz_seconds < 0 then ['-'] else ['+']
        let tz_abs : Int := if tz_seconds < 0 then |tz_seconds| else tz_seconds
        let hrs := tz_abs / 3600
        let rest := tz_abs % 3600
        let mins := rest / 60
        sign ++ formatPad 2 hrs ++ [apos] ++ formatPad 2 mins ++ [apos]
  base_dt ++ utc_offset_string

/-- C4 (code bug, evaluated at the failing input): for the UTC offset
−05:00 the code renders the suffix `+19'00'` — `timedelta.seconds` of a
negative offset is `86400 - 18000 = 68400` seconds, the days component is
dropped and the negative-sign branch is dead — instead of the `-05'00'`
the claim specifies.  Zero and positive offsets (`Z`, `+05'30'`) behave as
claimed. -/
theorem c4_pdf_date_negative_offset :
    pdf_date ⟨2020, 1, 1, 0, 0, 0, some (-18000)⟩
        = "D:20200101000000+19".toList ++ [apos] ++ "00".toList ++ [apos] ∧
      pdf_date ⟨2020, 1, 1, 0, 0, 0, some (-18000)⟩
        ≠ "D:20200101000000-05".toList ++ [apos] ++ "00".toList ++ [apos] ∧
      pdf_date ⟨2020, 1, 1, 0, 0, 0, some 0⟩
        = "D:20200101000000Z".toList ∧
      pdf_date ⟨2020, 1, 1, 0, 0, 0, some 19800⟩
        = "D:20200101000000+05".toList ++ [apos] ++ "30".toList ++ [apos] := by
  decide

/-- An opaque stand-in for `asn1crypto`'s `x509.Certificate`. -/
structure Certificate where
  der : List Nat
deriving DecidableEq

/-- `SignatureStatus` dataclass (lines 156-175). -/
structure SignatureStatus where
  intact : Bool
  valid : Bool
  complete_document : Bool
  signing_cert : Certificate
  ca_chain : List Certificate
  pkcs7_signature_mechanism : String
  md_algorithm : String
deriving DecidableEq

/-- `SignatureStatus.summary` (lines 166-175). -/
def SignatureStatus.summary (s : SignatureStatus) : String :=
  if !s.valid then "FORGED"
  else if s.intact then
    if s.complete_document then "INTACT_UNTOUCHED" else "INTACT_EXTENDED"
  else "INVALID"

/-- C9: `summary()` returns FORGED whenever `valid` is false (whatever
`intact` and `complete_document` are), INTACT_UNTOUCHED when `valid`,
`intact` and `complete_document` all hold, INTACT_EXTENDED when `valid`
and `intact` hold but `complete_document` does not, and INVALID when
`valid` holds but `intact` does not. -/
theorem c9_summary_mapping :
    (∀ (i c : Bool) (cert : Certificate) (ch : List Certificate)
        (m d : String),
      (SignatureStatus.mk i false c cert ch m d).summary = "FORGED") ∧
      (∀ (cert : Certificate) (ch : List Certificate) (m d : String),
        (SignatureStatus.mk true true true cert ch m d).summary
          = "INTACT_UNTOUCHED") ∧
      (∀ (cert : Certificate) (ch : List Certificate) (m d : String),
        (SignatureStatus.mk true true false cert ch m d).summary
          = "INTACT_EXTENDED") ∧
      (∀ (c : Bool) (cert : Certificate) (ch : List Certificate)
        (m d : String),
        (SignatureStatus.mk false true c cert ch m d).summary = "INVALID") := by
  refine ⟨?_, ?_, ?_, ?_⟩ <;> intros <;> rfl

end Pdfstamp

namespace Pdfstamp

/-- The PDF value universe needed by the dictionaries under study (the
array-valued entries of the source are not reached by these claims), plus
the two placeholder objects, modeled by their defining data. -/
inductive PdfValue where
  | name (s : String)
  | string (s : String)
  | number (n : Int)
  | indirect (id : Nat)
  | contentsPlaceholder (reserved : Nat)
  | byteRangePlaceholder (o : SigByteRangeObject)
deriving DecidableEq

/-- Python's `str.lower`, character by character. -/
def pyLower (s : String) : String := String.mk (s.data.map Char.toLower)

/-- Python's `str.upper`, character by character. -/
def pyUpper (s : String) : String := String.mk (s.data.map Char.toUpper)

def pdf_name (s : String) : PdfValue := .name s

def pdf_string (s : String) : PdfValue := .string s

/-- A value stored in a Python dictionary slot: either the PDF object
itself or — via a trailing-comma slip — a Python 1-tuple wrapping it. -/
inductive PyVal where
  | obj (v : PdfValue)
  | tuple1 (v : PdfValue)
deriving DecidableEq

/-- Reserved payload size from `PKCS7Placeholder.__init__` (line 100):
`b'0' * (bytes_reserved or 8192)`, Python `or` treating both `None` and
`0` as absent. -/
def PKCS7Placeholder.init_reserved (bytes_reserved : Option Nat) : Nat :=
  match bytes_reserved with
  | some r => if r = 0 then 8192 else r
  | none => 8192

/-- `SignatureObject.__init__` (lines 130-153) as the association list of
the dictionary it builds, in insertion order.  The `/Name`, `/Location`
and `/Reason` assignments carry the source's trailing commas, hence store
1-tuples. -/
def SignatureObject_init (timestamp : Datetime)
    (name location reason : Option String) (bytes_reserved : Option Nat) :
    List (String × PyVal) :=
  [("/Type", .obj (pdf_name "/Sig")),
   ("/Filter", .obj (pdf_name "/Adobe.PPKLite")),
   ("/SubFilter", .obj (pdf_name "/adbe.pkcs7.detached")),
   ("/M", .obj (pdf_string (String.mk (pdf_date timestamp))))]
  ++ (match name with
      | some n => if n ≠ "" then [("/Name", PyVal.tuple1 (pdf_string n))]
          else []
      | none => [])
  ++ (match location with
      | some l => if l ≠ "" then [("/Location", PyVal.tuple1 (pdf_string l))]
          else []
      | none => [])
  ++ (match reason with
      | some r => if r ≠ "" then [("/Reason", PyVal.tuple1 (pdf_string r))]
          else []
      | none => [])
  ++ [("/Contents",
        .obj (.contentsPlaceholder (PKCS7Placeholder.init_reserved
          bytes_reserved))),
      ("/ByteRange", .obj (.byteRangePlaceholder SigByteRangeObject.init))]

/-- C6 (code bug, evaluated): with non-empty name, location and reason the
signature dictionary stores `/Name`, `/Location` and `/Reason` as Python
1-tuples wrapping the PDF string — the trailing-comma slip — not as the
scalar strings the claim specifies. -/
theorem c6_signature_dict_tuples :
    List.lookup "/Name"
        (SignatureObject_init ⟨2020, 1, 1, 12, 0, 0, some 0⟩ (some "Alice")
          (some "Lisbon") (some "testing") none)
        = some (PyVal.tuple1 (pdf_string "Alice")) ∧
      List.lookup "/Location"
        (SignatureObject_init ⟨2020, 1, 1, 12, 0, 0, some 0⟩ (some "Alice")
          (some "Lisbon") (some "testing") none)
        = some (PyVal.tuple1 (pdf_string "Lisbon")) ∧
      List.lookup "/Reason"
        (SignatureObject_init ⟨2020, 1, 1, 12, 0, 0, some 0⟩ (some "Alice")
          (some "Lisbon") (some "testing") none)
        = some (PyVal.tuple1 (pdf_string "testing")) ∧
      List.lookup "/Name"
        (SignatureObject_init ⟨2020, 1, 1, 12, 0, 0, some 0⟩ (some "Alice")
          (some "Lisbon") (some "testing") none)
        ≠ some (PyVal.obj (pdf_string "Alice")) := by
  decide

/-- `DocMDPPerm` (lines 570-577): the member values as written in the
source. -/
inductive DocMDPPerm where
  | NO_CHANGES
  | FILL_FORMS
  | ANNOTATE
deriving DecidableEq

def DocMDPPerm.val : DocMDPPerm → Int
  | .NO_CHANGES => 0
  | .FILL_FORMS => 2
  | .ANNOTATE => 3

/-- The two dictionaries `_certification_setup` (lines 592-616) builds:
`TransformParams` and the `SigRef` that wraps it.  Writer bookkeeping
(indirect references, the `/Perms/DocMDP` catalog entry) is outside this
value-level model. -/
def certification_setup (md_algorithm : String)
    (permission_level : DocMDPPerm) :
    (List (String × PdfValue)) × (List (String × PdfValue)) :=
  ([("/Type", pdf_name "/TransformParams"),
    ("/V", pdf_name "/1.2"),
    ("/P", .number permission_level.val)],
   [("/Type", pdf_name "/SigRef"),
    ("/TransformMethod", pdf_name "/DocMDP"),
    ("/DigestMethod", pdf_name ("/" ++ pyUpper md_algorithm))])

/-- C5 (code bug, evaluated): the source sets `NO_CHANGES = 0`, not 1 as
the claim (and Table 254 of ISO 32000, which the enum's own docstring
cites) requires, so certifying with NO_CHANGES writes `TransformParams/P
= 0`.  `FILL_FORMS = 2` and `ANNOTATE = 3` are as claimed. -/
theorem c5_docmdp_no_changes_zero :
    DocMDPPerm.val .NO_CHANGES = 0 ∧
      DocMDPPerm.val .NO_CHANGES ≠ 1 ∧
      DocMDPPerm.val .FILL_FORMS = 2 ∧
      DocMDPPerm.val .ANNOTATE = 3 ∧
      List.lookup "/P" (certification_setup "sha512" .NO_CHANGES).1
        = some (PdfValue.number 0) := by
  decide

end Pdfstamp

namespace Pdfstamp

abbrev Bytes := List Nat

/-- The outcome of a raw signing call.  External cryptographic calls are
represented symbolically by which primitive ran and on what input. -/
inductive RawSignature where
  | rsa_pkcs1v15 (key : Nat) (data : Bytes) (algo : String)
  | pkcs11_sign (key_handle : Nat) (mechanism : String) (data : Bytes)
  | fake (value : Bytes)
deriving DecidableEq

/-- `SimpleSigner.sign_raw` (lines 422-426): always calls
`asymmetric.rsa_pkcs1v15_sign` on the data; `dry_run` is accepted but
ignored. -/
def SimpleSigner.sign_raw (signing_key : Nat) (data : Bytes)
    (digest_algorithm : String) (_dry_run : Bool) : RawSignature :=
  .rsa_pkcs1v15 signing_key data (pyLower digest_algorithm)

/-- The `pkcs11` mechanism dictionary of `PKCS11Signer.sign_raw`
(lines 518-523); a missing key is Python's `KeyError`. -/
def PKCS11Signer.mechanism_table (algo : String) : Option String :=
  if algo = "sha1" then some "SHA1_RSA_PKCS"
  else if algo = "sha256" then some "SHA256_RSA_PKCS"
  else if algo = "sha384" then some "SHA384_RSA_PKCS"
  else if algo = "sha512" then some "SHA512_RSA_PKCS"
  else none

/-- `PKCS11Signer.sign_raw` (lines 510-524): in dry-run returns the fixed
fake `b'0' * 512` (512 bytes of ASCII `'0'`, code 48) without touching the
token. -/
def PKCS11Signer.sign_raw (key_handle : Nat) (data : Bytes)
    (digest_algorithm : String) (dry_run : Bool) :
    Except String RawSignature :=
  if dry_run then .ok (.fake (List.replicate 512 48))
  else match PKCS11Signer.mechanism_table (pyLower digest_algorithm) with
    | some mech => .ok (.pkcs11_sign key_handle mech data)
    | none => .error "KeyError"

/-- C8 (counterexample): `SimpleSigner.sign_raw` called with `dry_run`
set still performs the real RSA PKCS#1 v1.5 signing call — the very same
call as a non-dry run — rather than returning a fixed-size fake, so the
claim quantified over every Signer implementation is false. -/
theorem c8_counterexample :
    SimpleSigner.sign_raw 1 [0] "sha256" true
        = RawSignature.rsa_pkcs1v15 1 [0] "sha256" ∧
      SimpleSigner.sign_raw 1 [0] "sha256" true
        = SimpleSigner.sign_raw 1 [0] "sha256" false ∧
      SimpleSigner.sign_raw 1 [0] "sha256" true
        ≠ RawSignature.fake (List.replicate 512 48) := by
  decide

/-- C8 (amended): with `dry_run` set, `PKCS11Signer.sign_raw` returns the
deterministic fixed 512-byte fake `b'0' * 512` without a real signing
operation, while `SimpleSigner.sign_raw` ignores `dry_run` and performs
exactly the signing call of a real run (deterministic for RSA PKCS#1
v1.5). -/
theorem c8_dry_run_amended :
    ∀ (key : Nat) (data : Bytes) (algo : String),
      PKCS11Signer.sign_raw key data algo true
          = .ok (.fake (List.replicate 512 48)) ∧
        SimpleSigner.sign_raw key data algo true
          = SimpleSigner.sign_raw key data algo false := by
  intro key data algo
  exact ⟨rfl, rfl⟩

end Pdfstamp

namespace Pdfstamp

/-- An AcroForm field as the enumeration code reads it: the resolved
indirect reference (`ref`), the `/T` name, the `/FT` type, the `/V` value
(as the id of the referenced object, when present) and the `/Kids`
array.  `none` stands for a missing dictionary key. -/
inductive FieldTree where
  | node (ref : Nat) (t : Option String) (ft : Option String)
      (v : Option Nat) (kids : Option (List FieldTree))

def FieldTree.ref : FieldTree → Nat
  | .node r _ _ _ _ => r

def FieldTree.t : FieldTree → Option String
  | .node _ t _ _ _ => t

def FieldTree.ft : FieldTree → Option String
  | .node _ _ ft _ _ => ft

def FieldTree.v : FieldTree → Option Nat
  | .node _ _ _ v _ => v

def FieldTree.kids : FieldTree → Option (List FieldTree)
  | .node _ _ _ _ k => k

/-- A triple yielded by the enumeration: `(str(field_name), field_value,
field_ref)`. -/
abbrev YieldItem := String × Option Nat × Nat

mutual

/-- `enumerate_sig_fields_in` (lines 764-795), eagerly collecting the
generator's yields; a raised `ValueError` becomes an `error` result.  Note
the recursive call on `field['/Kids']` passes neither `filled_status` nor
`with_name`, exactly as in the source. -/
def enumerate_sig_fields_in (field_list : List FieldTree)
    (filled_status : Option Bool) (with_name : Option String) :
    Except String (List YieldItem) :=
  match field_list with
  | [] => .ok []
  | f :: rest => do
    let ys ← enumField f filled_status with_name
    let zs ← enumerate_sig_fields_in rest filled_status with_name
    .ok (ys ++ zs)

/-- One iteration of the `for field_ref in field_list` loop body. -/
def enumField (f : FieldTree) (filled_status : Option Bool)
    (with_name : Option String) : Except String (List YieldItem) :=
  match f with
  | .node ref t ft v kids =>
    match t with
    | none => .ok []
    | some field_name =>
      if ft ≠ some "/Sig" then
        if with_name = some field_name then
          .error ("Field with name " ++ field_name
            ++ " exists but is not a signature field")
        else .ok []
      else
        let filled := v.isSome
        let status_check : Bool := filled_status.isNone
          || filled_status == some filled
        let name_check : Bool := with_name.isNone
          || with_name == some field_name
        let own : List YieldItem := if status_check && name_check
          then [(field_name, v, ref)] else []
        match kids with
        | none => .ok own
        | some ks => do
          let kys ← enumerate_sig_fields_in ks none none
          .ok (own ++ kys)

end

/-- Python's `', '.join(names)`. -/
def joinComma : List String → String
  | [] => ""
  | [s] => s
  | s :: rest => s ++ ", " ++ joinComma rest

/-- The `field_name is None` branch of `sign_pdf` (lines 965-988): the
field-selection logic, on the document's field forest. -/
def sign_pdf_noname (existing_fields_only : Bool)
    (fields : List FieldTree) : Except String YieldItem :=
  if !existing_fields_only then
    .error ("Not specifying a signature field name is only allowed when "
      ++ "existing_fields_only=True")
  else do
    let empty_fields ← enumerate_sig_fields_in fields (some false) none
    match empty_fields with
    | [] => .error "There are no empty signature fields."
    | (field_name, v, ref) :: rest =>
      let others := joinComma (rest.map (·.1))
      if others ≠ "" then
        .error ("There are several empty signature fields. Please specify "
          ++ "a field name. The options are " ++ field_name ++ ", "
          ++ others ++ ".")
      else .ok (field_name, v, ref)

/-- What a kid-free field directly in the list contributes under the
emptiness filter. -/
def topYield (b : Bool) : FieldTree → Option YieldItem
  | .node ref t ft v _ =>
    match t with
    | none => none
    | some n => if ft = some "/Sig" ∧ v.isSome = b then some (n, v, ref)
        else none

end Pdfstamp

namespace Pdfstamp

theorem enumField_kidfree (b : Bool) (ref : Nat) (t ft : Option String)
    (v : Option Nat) :
    enumField (.node ref t ft v none) (some b) none
      = .ok ((topYield b (.node ref t ft v none)).toList) := by
  cases t with
  | none => simp [enumField, topYield]
  | some n =>
    by_cases hft : ft = some "/Sig"
    · by_cases hb : v.isSome = b
      · simp [enumField, topYield, hft, hb]
      · simp [enumField, topYield, hft, hb]
        intro hc
        exact absurd hc.symm hb
    · simp [enumField, topYield, hft]

theorem enum_kidfree (fields : List FieldTree) (b : Bool)
    (hk : ∀ f ∈ fields, f.kids = none) :
    enumerate_sig_fields_in fields (some b) none
      = .ok (fields.filterMap (topYield b)) := by
  induction fields with
  | nil => simp [enumerate_sig_fields_in]
  | cons f rest ih =>
    have hkf : f.kids = none := hk f (by simp)
    have ihr := ih (fun g hg => hk g (by simp [hg]))
    obtain ⟨ref, t, ft, v, kids⟩ := f
    simp only [FieldTree.kids] at hkf
    subst hkf
    rw [List.filterMap_cons]
    cases h : topYield b (.node ref t ft v none) with
    | none =>
      simp only [enumerate_sig_fields_in, enumField_kidfree, ihr, h,
        Option.toList]
      rfl
    | some y =>
      simp only [enumerate_sig_fields_in, enumField_kidfree, ihr, h,
        Option.toList]
      rfl

theorem enum_error_of_bad_field (fields : List FieldTree)
    (fs : Option Bool) (nm : String)
    (hbad : ∃ f ∈ fields, f.t = some nm ∧ f.ft ≠ some "/Sig") :
    (enumerate_sig_fields_in fields fs (some nm)).isOk = false := by
  induction fields with
  | nil => simp at hbad
  | cons f rest ih =>
    rcases hbad with ⟨g, hg, hgt, hgft⟩
    rcases List.mem_cons.mp hg with rfl | hgr
    · obtain ⟨ref, t, ft, v, kids⟩ := g
      simp only [FieldTree.t] at hgt
      simp only [FieldTree.ft] at hgft
      subst hgt
      have hef : enumField (.node ref (some nm) ft v kids) fs (some nm)
          = .error ("Field with name " ++ nm
            ++ " exists but is not a signature field") := by
        rw [enumField]
        simp [hgft]
      simp only [enumerate_sig_fields_in, hef]
      rfl
    · obtain ⟨ref, t, ft, v, kids⟩ := f
      have hrest := ih ⟨g, hgr, hgt, hgft⟩
      cases hef : enumField (.node ref t ft v kids) fs (some nm) with
      | error e =>
        simp only [enumerate_sig_fields_in, hef]
        rfl
      | ok ys =>
        cases her : enumerate_sig_fields_in rest fs (some nm) with
        | error e =>
          simp only [enumerate_sig_fields_in, hef, her]
          rfl
        | ok zs =>
          rw [her] at hrest
          exact Bool.noConfusion hrest

end Pdfstamp

namespace Pdfstamp

theorem joinComma_ne_empty (s : String) (l : List String) (hs : s ≠ "") :
    joinComma (s :: l) ≠ "" := by
  cases l with
  | nil => simpa [joinComma] using hs
  | cons a l' =>
    simp only [joinComma]
    intro h
    have hlen := congrArg String.length h
    rw [String.length_append, String.length_append] at hlen
    have h2 : (", ").length = 2 := rfl
    rw [h2] at hlen
    have h0 : ("" : String).length = 0 := rfl
    rw [h0] at hlen
    omega

/-- C7 (counterexample): with `filled_status = empty`, enumerating a list
holding one empty signature field `A` whose `/Kids` contain a filled
signature field `B` yields `B` as well — the recursive call drops the
filter — so not every yielded field satisfies the requested status. -/
theorem c7_counterexample :
    ¬ (∀ res, enumerate_sig_fields_in
          [.node 1 (some "A") (some "/Sig") none
            (some [.node 2 (some "B") (some "/Sig") (some 5) none])]
          (some false) none = .ok res →
        ∀ it ∈ res, it.2.1.isSome = false) := by
  intro hcl
  have heval : enumerate_sig_fields_in
      [.node 1 (some "A") (some "/Sig") none
        (some [.node 2 (some "B") (some "/Sig") (some 5) none])]
      (some false) none
      = .ok [("A", none, 1), ("B", some 5, 2)] := by
    simp [enumerate_sig_fields_in, enumField]
    rfl
  have hB := hcl _ heval ("B", some 5, 2) (by simp)
  simp at hB

/-- C7 (amended): on a field list without `/Kids` entries the enumeration
behaves as claimed: it succeeds with `with_name = None`, every yielded
item stems from a directly listed field carrying its `/T` as the name and
its `/V` as the value, bearing `/FT = /Sig`, and matching the requested
filled/empty status (so fields lacking `/T` contribute nothing); and a
listed field whose name matches the requested one but whose `/FT` is not
`/Sig` makes the enumeration fail.  In general, fields yielded out of
`/Kids` subtrees are *not* filtered (see the counterexample). -/
theorem c7_enumeration_amended (fields : List FieldTree) (b : Bool)
    (hk : ∀ f ∈ fields, f.kids = none) :
    (∃ res, enumerate_sig_fields_in fields (some b) none = .ok res ∧
      ∀ it ∈ res, ∃ f ∈ fields, f.t = some it.1 ∧ f.ft = some "/Sig"
        ∧ f.v = it.2.1 ∧ it.2.1.isSome = b) ∧
    (∀ nm, (∃ f ∈ fields, f.t = some nm ∧ f.ft ≠ some "/Sig") →
      (enumerate_sig_fields_in fields (some b) (some nm)).isOk = false) := by
  constructor
  · refine ⟨_, enum_kidfree fields b hk, ?_⟩
    intro it hit
    rcases List.mem_filterMap.mp hit with ⟨f, hf, hy⟩
    obtain ⟨ref, t, ft, v, kids⟩ := f
    cases t with
    | none => simp [topYield] at hy
    | some n =>
      simp only [topYield] at hy
      split at hy
      · rename_i hc
        cases hy
        exact ⟨.node ref (some n) ft v kids, hf, rfl, hc.1, rfl, hc.2⟩
      · exact Option.noConfusion hy
  · intro nm hbad
    exact enum_error_of_bad_field fields (some b) nm hbad

end Pdfstamp

namespace Pdfstamp

theorem c7_enumeration_amended_witness :
    (∀ f ∈ [FieldTree.node 1 (some "A") (some "/Sig") none none,
        FieldTree.node 2 (some "X") (some "/Btn") (some 7) none],
      f.kids = none) ∧
      ((∃ res, enumerate_sig_fields_in
          [FieldTree.node 1 (some "A") (some "/Sig") none none,
            FieldTree.node 2 (some "X") (some "/Btn") (some 7) none]
          (some false) none = .ok res ∧
        ∀ it ∈ res, ∃ f ∈ [FieldTree.node 1 (some "A") (some "/Sig") none
              none, FieldTree.node 2 (some "X") (some "/Btn") (some 7) none],
          f.t = some it.1 ∧ f.ft = some "/Sig" ∧ f.v = it.2.1
            ∧ it.2.1.isSome = false) ∧
      (∀ nm, (∃ f ∈ [FieldTree.node 1 (some "A") (some "/Sig") none none,
            FieldTree.node 2 (some "X") (some "/Btn") (some 7) none],
          f.t = some nm ∧ f.ft ≠ some "/Sig") →
        (enumerate_sig_fields_in
          [FieldTree.node 1 (some "A") (some "/Sig") none none,
            FieldTree.node 2 (some "X") (some "/Btn") (some 7) none]
          (some false) (some nm)).isOk = false)) :=
  have hk : ∀ f ∈ [FieldTree.node 1 (some "A") (some "/Sig") none none,
      FieldTree.node 2 (some "X") (some "/Btn") (some 7) none],
      f.kids = none := by
    intro f hf
    rcases List.mem_cons.mp hf with rfl | hf2
    · rfl
    · rcases List.mem_cons.mp hf2 with rfl | hf3
      · rfl
      · exact absurd hf3 (List.not_mem_nil f)
  ⟨hk, c7_enumeration_amended
    [FieldTree.node 1 (some "A") (some "/Sig") none none,
      FieldTree.node 2 (some "X") (some "/Btn") (some 7) none] false hk⟩

/-- C3 (counterexample): a document with two empty signature fields named
`A` and `""` (the empty string): the claim demands a failure naming the
candidates, but `sign_pdf` selects `A` silently — the candidate string
`', '.join(...)` over the single remaining name `""` is empty, so the
ambiguity branch is skipped. -/
theorem c3_counterexample :
    sign_pdf_noname true
        [.node 1 (some "A") (some "/Sig") none none,
          .node 2 (some "") (some "/Sig") none none]
        = .ok ("A", none, 1) ∧
      (sign_pdf_noname true
        [.node 1 (some "A") (some "/Sig") none none,
          .node 2 (some "") (some "/Sig") none none]).isOk ≠ false := by
  have heval : enumerate_sig_fields_in
      [.node 1 (some "A") (some "/Sig") none none,
        .node 2 (some "") (some "/Sig") none none] (some false) none
      = .ok [("A", none, 1), ("", none, 2)] := by
    simp [enumerate_sig_fields_in, enumField]
    rfl
  have hmain : sign_pdf_noname true
      [.node 1 (some "A") (some "/Sig") none none,
        .node 2 (some "") (some "/Sig") none none] = .ok ("A", none, 1) := by
    simp [sign_pdf_noname, heval, joinComma]
    rfl
  refine ⟨hmain, ?_⟩
  rw [hmain]
  decide

/-- C3 (amended): when `metadata.field_name` is `None` the call fails
unless `existing_fields_only` holds; on documents whose signature fields
have no `/Kids` and carry nonempty names, it then selects the unique
empty signature field, failing when there is none and failing (naming
the candidates) when there is more than one.  Without those provisos the
code can mis-select (see the counterexample and C7). -/
theorem c3_sign_pdf_noname_amended (fields : List FieldTree)
    (hk : ∀ f ∈ fields, f.kids = none)
    (hn : ∀ f ∈ fields, ∀ s, f.t = some s → s ≠ "") :
    ((sign_pdf_noname false fields).isOk = false) ∧
      (fields.filterMap (topYield false) = [] →
        sign_pdf_noname true fields
          = .error "There are no empty signature fields.") ∧
      (∀ y, fields.filterMap (topYield false) = [y] →
        sign_pdf_noname true fields = .ok y) ∧
      (∀ y z rest, fields.filterMap (topYield false) = y :: z :: rest →
        (sign_pdf_noname true fields).isOk = false) := by
  have henum := enum_kidfree fields false hk
  refine ⟨rfl, ?_, ?_, ?_⟩
  · intro hemp
    simp [sign_pdf_noname, henum, hemp]
    rfl
  · intro y hy
    obtain ⟨n, vv, r⟩ := y
    simp [sign_pdf_noname, henum, hy, joinComma]
    rfl
  · intro y z rest hr
    have hz : z ∈ fields.filterMap (topYield false) := by
      rw [hr]
      simp
    rcases List.mem_filterMap.mp hz with ⟨f, hf, hyf⟩
    have hzname : z.1 ≠ "" := by
      obtain ⟨ref, t, ft, v, kids⟩ := f
      cases t with
      | none => simp [topYield] at hyf
      | some s =>
        have hs : s ≠ "" := hn _ hf s rfl
        simp only [topYield] at hyf
        split at hyf
        · cases hyf
          exact hs
        · exact Option.noConfusion hyf
    obtain ⟨n, vv, r⟩ := y
    simp only [sign_pdf_noname, henum, hr, Bool.not_true]
    have hcond : joinComma (List.map (fun x => x.1) (z :: rest)) ≠ "" := by
      rw [List.map_cons]
      exact joinComma_ne_empty z.1 (rest.map (·.1)) hzname
    show (if joinComma (List.map (fun x => x.1) (z :: rest)) ≠ "" then
        Except.error ("There are several empty signature fields. "
          ++ "Please specify " ++ "a field name. The options are " ++ n
          ++ ", " ++ joinComma (List.map (fun x => x.1) (z :: rest)) ++ ".")
      else Except.ok (n, vv, r) : Except String YieldItem).isOk = false
    rw [if_pos hcond]
    rfl

end Pdfstamp

namespace Pdfstamp

theorem c3_sign_pdf_noname_amended_witness :
    (∀ f ∈ [FieldTree.node 1 (some "A") (some "/Sig") none none],
        f.kids = none) ∧
      (∀ f ∈ [FieldTree.node 1 (some "A") (some "/Sig") none none],
        ∀ s, f.t = some s → s ≠ "") ∧
      (((sign_pdf_noname false
          [FieldTree.node 1 (some "A") (some "/Sig") none none]).isOk
            = false) ∧
        (List.filterMap (topYield false)
            [FieldTree.node 1 (some "A") (some "/Sig") none none] = [] →
          sign_pdf_noname true
            [FieldTree.node 1 (some "A") (some "/Sig") none none]
            = .error "There are no empty signature fields.") ∧
        (∀ y, List.filterMap (topYield false)
            [FieldTree.node 1 (some "A") (some "/Sig") none none] = [y] →
          sign_pdf_noname true
            [FieldTree.node 1 (some "A") (some "/Sig") none none] = .ok y) ∧
        (∀ y z rest, List.filterMap (topYield false)
            [FieldTree.node 1 (some "A") (some "/Sig") none none]
            = y :: z :: rest →
          (sign_pdf_noname true
            [FieldTree.node 1 (some "A") (some "/Sig") none none]).isOk
            = false)) :=
  have hk : ∀ f ∈ [FieldTree.node 1 (some "A") (some "/Sig") none none],
      f.kids = none := by
    intro f hf
    rcases List.mem_cons.mp hf with rfl | hf2
    · rfl
    · exact absurd hf2 (List.not_mem_nil f)
  have hn : ∀ f ∈ [FieldTree.node 1 (some "A") (some "/Sig") none none],
      ∀ s, f.t = some s → s ≠ "" := by
    intro f hf s hs
    rcases List.mem_cons.mp hf with rfl | hf2
    · simp only [FieldTree.t, Option.some.injEq] at hs
      subst hs
      decide
    · exact absurd hf2 (List.not_mem_nil f)
  ⟨hk, hn, c3_sign_pdf_noname_amended
    [FieldTree.node 1 (some "A") (some "/Sig") none none] hk hn⟩

end Pdfstamp
